import Mathlib

/-!
# Verification of the cudf-polars expression / logical-plan evaluator

A shallow embedding of `cudf_polars/dsl/expr.py` and `cudf_polars/dsl/ir.py`
(the expression evaluator and the logical-plan evaluator), together with
models of the container layer (`cudf_polars.containers`) and of the columnar
compute collaborators (`pylibcudf`), which are outside the provided source
files and are therefore modelled from the specification's documented
semantics.

Machine values are modelled as `Option Int` cells (`none` = NULL); boolean
cells use `some 1` / `some 0`.  Fallible Python code (raised exceptions) is
modelled with `Except Err`.
-/

namespace CudfPolars

/-- Python exception classes raised by the engine and its collaborators. -/
inductive Err where
  | notImplemented (msg : String)
  | valueError (msg : String)
  | typeError (msg : String)
  | attributeError (msg : String)
  | keyError (msg : String)
  | indexError (msg : String)
  | assertionError (msg : String)
deriving DecidableEq, Repr

/-- Source `plc.types.Sorted`: whether a column is known to be sorted. -/
inductive Sorted where
  | yes
  | no
deriving DecidableEq, Repr

/-- Source `plc.types.Order`: sort order of a column. -/
inductive Order where
  | ascending
  | descending
deriving DecidableEq, Repr

/-- Source `plc.types.NullOrder`: where nulls are placed relative to values. -/
inductive NullOrder where
  | before
  | after
deriving DecidableEq, Repr

/-- Sortedness metadata carried by a column (is-sorted flag, sort order,
null ordering), per the data model of the spec and `Column.set_sorted`. -/
structure Sortedness where
  isSorted : Sorted
  order : Order
  nullOrder : NullOrder
deriving DecidableEq, Repr

/-- A value cell of a column: `none` is NULL, `some k` a concrete value.
Boolean cells are encoded as `some 1` (true) and `some 0` (false). -/
abbrev Val := Option Int

/-- Logical data type of a column, inert in this model (the numeric kernels
are out of scope); kept so nodes carry the same fields as the source. -/
abbrev DType := String

/-- Modelled from the spec: a `cudf_polars.containers.Column` is a named,
typed sequence of values with an optional null bitmap and sortedness
metadata.  The containers module is not among the provided source files.
A freshly constructed column (`Column(obj, name)`) carries default
sortedness metadata (not sorted). -/
structure Column where
  values : List Val
  name : String
  sortedness : Sortedness
deriving DecidableEq, Repr

/-- Default sortedness of a freshly constructed `Column`. -/
def defaultSortedness : Sortedness :=
  { isSorted := .no, order := .ascending, nullOrder := .before }

/-- Source `Column(obj, name)`: fresh column wrapper with default metadata. -/
def Column.fresh (values : List Val) (name : String) : Column :=
  { values := values, name := name, sortedness := defaultSortedness }

/-- Source `Column.set_sorted(is_sorted=..., order=..., null_order=...)`;
transformations produce new columns (the spec: no in-place mutation). -/
def Column.setSorted (c : Column) (isSorted : Sorted) (order : Order)
    (nullOrder : NullOrder) : Column :=
  { c with sortedness := ⟨isSorted, order, nullOrder⟩ }

/-- Source `Column.with_sorted(like=other)`: copy the sortedness metadata of
`other` onto a new column. -/
def Column.withSortedLike (c : Column) (other : Column) : Column :=
  { c with sortedness := other.sortedness }

/-- Number of NULL cells (`Column.obj.null_count()`). -/
def nullCount (vals : List Val) : Nat :=
  vals.countP fun v => v = none

/-- Modelled from the spec: a `cudf_polars.containers.DataFrame` is an
ordered collection of uniquely-named columns plus named scalars; the
scalars play no role in the claims below and are omitted. -/
structure DataFrame where
  columns : List Column
deriving DecidableEq, Repr

/-- Source `DataFrame.num_rows`: all non-scalar columns share one row count
(spec invariant); the row count of the first column is reported. -/
def DataFrame.numRows (df : DataFrame) : Nat :=
  match df.columns with
  | [] => 0
  | c :: _ => c.values.length

/-- Source `DataFrame.column_names`. -/
def DataFrame.columnNames (df : DataFrame) : List String :=
  df.columns.map (·.name)

/-- Source `df._column_map[name]` lookup, `KeyError` when absent. -/
def DataFrame.getColumn (df : DataFrame) (name : String) : Except Err Column :=
  match df.columns.find? (fun c => c.name = name) with
  | some c => .ok c
  | none => .error (.keyError name)

/-- Source `DataFrame.with_columns`: new frame with extra columns appended. -/
def DataFrame.withColumns (df : DataFrame) (cols : List Column) : DataFrame :=
  ⟨df.columns ++ cols⟩

/-- Source `DataFrame.discard_columns(names)`: new frame without the named columns. -/
def DataFrame.discardColumns (df : DataFrame) (names : List String) : DataFrame :=
  ⟨df.columns.filter fun c => ¬ c.name ∈ names⟩

/-- Source `DataFrame.select_columns(names)`: the columns with the given names, in
frame order. -/
def DataFrame.selectColumns (df : DataFrame) (names : List String) : List Column :=
  df.columns.filter fun c => c.name ∈ names

/-- Source `DataFrame.replace_columns(*columns)`: new frame in which each column
whose name matches one of the replacements is replaced by it. -/
def DataFrame.replaceColumns (df : DataFrame) (repl : List Column) : DataFrame :=
  ⟨df.columns.map fun c =>
    match repl.find? (fun r => r.name = c.name) with
    | some r => r
    | none => c⟩

/-- Source `DataFrame.rename_columns(mapping)`: rename columns by name. -/
def DataFrame.renameColumns (df : DataFrame) (mapping : List (String × String)) :
    DataFrame :=
  ⟨df.columns.map fun c =>
    match mapping.find? (fun p => p.1 = c.name) with
    | some p => { c with name := p.2 }
    | none => c⟩

/-- Modelled from the spec: `DataFrame.with_sorted(like=other, subset=...)`
copies sortedness metadata from the same-named columns of `other` (for the
columns in `subset`, or all columns when no subset is given). -/
def DataFrame.withSortedLikeDF (df : DataFrame) (other : DataFrame)
    (subset : Option (List String)) : DataFrame :=
  ⟨df.columns.map fun c =>
    if (match subset with | none => True | some s => c.name ∈ s : Bool) then
      match other.columns.find? (fun o => o.name = c.name) with
      | some o => { c with sortedness := o.sortedness }
      | none => c
    else c⟩

/-- Row-slice helper: rows `[start, start+len)` of a value list. -/
def sliceVals (vals : List Val) (start : Nat) (len : Nat) : List Val :=
  (vals.drop start).take len

/-- Modelled from the spec: `DataFrame.slice(zlice)` applies an optional
(offset, length) row window, a negative offset counting from the end. -/
def DataFrame.slice (df : DataFrame) (zlice : Option (Int × Nat)) : DataFrame :=
  match zlice with
  | none => df
  | some (offset, len) =>
      let n : Int := df.numRows
      let start : Nat := (if offset < 0 then max (n + offset) 0 else min offset n).toNat
      ⟨df.columns.map fun c => { c with values := sliceVals c.values start len }⟩

/-! ## Columnar compute collaborators (`pylibcudf`)

The compute primitives are external collaborators ("consumed as black-box
operations with documented semantics", spec §1/§6).  Each model below follows
the spec's collaborator contract and the documented libcudf semantics. -/

/-- Whether a boolean cell is true (`some 1`). -/
def isTrueCell (v : Val) : Bool := v = some 1

/-- Modelled from the spec: `plc.reduce.minmax` — a reduction that ignores
null cells; on an empty or all-null column it returns invalid (null)
scalars, which convert to Python `None` via `to_arrow(...).as_py()`. -/
def plcMinmax (vals : List Val) : Option Int × Option Int :=
  let xs := vals.filterMap id
  (xs.min?, xs.max?)

/-- Modelled from the spec: `plc.replace.replace_nulls(column, scalar)` —
replace every null cell by the scalar. -/
def plcReplaceNulls (vals : List Val) (fill : Int) : List Val :=
  vals.map fun v => some (v.getD fill)

/-- Modelled from the spec: `plc.copying.replace_nulls(column, column)`
variant — fill each null cell of the first column from the second. -/
def plcReplaceNullsColumn (vals fill : List Val) : List Val :=
  (vals.zip fill).map fun p => match p.1 with | some v => some v | none => p.2

/-- Source `plc.copying.OutOfBoundsPolicy`. -/
inductive OutOfBoundsPolicy where
  | nullify
  | dontCheck
deriving DecidableEq, Repr

/-- Modelled from the spec: `plc.copying.gather` — index-select rows; a
negative index `i` counts from the end (row `n + i`); under the `NULLIFY`
policy an out-of-range index produces a null row; under `DONT_CHECK`
out-of-range indices are undefined behaviour (modelled as a null row, a
case the engine never reaches because it validates bounds first); a null
index produces a null row. -/
def plcGatherVals (vals : List Val) (indices : List Val)
    (policy : OutOfBoundsPolicy) : List Val :=
  let n : Int := vals.length
  indices.map fun oi =>
    match oi with
    | none => none
    | some i =>
        let j := if i < 0 then i + n else i
        if h : 0 ≤ j ∧ j < n then vals.get ⟨j.toNat, by omega⟩
        else
          match policy with
          | .nullify => none
          | .dontCheck => none

/-- Modelled from the spec: `plc.stream_compaction.apply_boolean_mask` —
keep the rows whose mask cell is true (null mask cells drop the row); the
mask must have the same length as the column. -/
def plcApplyBooleanMask (vals mask : List Val) : Except Err (List Val) :=
  if vals.length = mask.length then
    .ok (((vals.zip mask).filter fun p => isTrueCell p.2).map (·.1))
  else
    .error (.valueError "mask length does not match column length")

/-- Cell comparator resolved from a per-key order and null order: `true`
when `a` sorts no later than `b`. -/
def cellLe (order : Order) (nullOrder : NullOrder) (a b : Val) : Bool :=
  match a, b with
  | none, none => true
  | none, some _ => nullOrder = .before
  | some _, none => nullOrder = .after
  | some x, some y =>
      match order with
      | .ascending => x ≤ y
      | .descending => y ≤ x

/-- Lexicographic row comparator over parallel key lists. -/
def rowLe (orders : List (Order × NullOrder)) (a b : List Val) : Bool :=
  match orders, a, b with
  | [], _, _ => true
  | _ :: _, [], _ => true
  | _ :: _, _ :: _, [] => true
  | (o, no) :: os, x :: xs, y :: ys =>
      if cellLe o no x y then
        if cellLe o no y x then rowLe os xs ys else true
      else false

/-- Insert into an already-sorted list, before the first element that the
comparator places no earlier (a stable insertion). -/
def insertLe {α : Type} (le : α → α → Bool) (x : α) : List α → List α
  | [] => [x]
  | y :: ys => if le x y then x :: y :: ys else y :: insertLe le x ys

/-- Stable insertion sort (ties keep their original order). -/
def insertionSort {α : Type} (le : α → α → Bool) : List α → List α
  | [] => []
  | x :: xs => insertLe le x (insertionSort le xs)

/-- Modelled from the spec: `plc.sorting.sort` / `stable_sort` on a
one-column table (the unstable variant leaves ties in unspecified order
and is modelled by the same stable sort). -/
def plcSortVals (vals : List Val) (order : Order) (nullOrder : NullOrder) :
    List Val :=
  insertionSort (cellLe order nullOrder) vals

/-- Modelled from the spec: `plc.sorting.sort_by_key` / `stable_sort_by_key`
on a one-column payload table: reorder the payload by lexicographically
sorting the key rows. -/
def plcSortByKeyVals (payload : List Val) (keys : List (List Val))
    (orders : List (Order × NullOrder)) : List Val :=
  let keyRows := (List.range payload.length).map fun i =>
    keys.map fun k => k.getD i none
  (insertionSort (fun a b => rowLe orders a.2 b.2) (payload.zip keyRows)).map
    (·.1)

/-- Modelled from the spec: `plc.concatenate.concatenate` — vertical
concatenation of tables of identical layout. -/
def plcConcatenateTables (dfs : List DataFrame) : List Column :=
  match dfs with
  | [] => []
  | first :: _ =>
      (List.range first.columns.length).map fun i =>
        { values := (dfs.map fun df =>
            (df.columns.getD i (Column.fresh [] "")).values).flatten
          name := (first.columns.getD i (Column.fresh [] "")).name
          sortedness := defaultSortedness }

/-- Source `plc.stream_compaction.DuplicateKeepOption`. -/
inductive DuplicateKeepOption where
  | keepFirst
  | keepLast
  | keepNone
  | keepAny
deriving DecidableEq, Repr

/-- Row equality on key cells: nulls compare equal when `nullsEqual`;
NaNs do not arise in this integer model (NaN-equality flags are inert). -/
def cellEq (nullsEqual : Bool) (a b : Val) : Bool :=
  match a, b with
  | none, none => nullsEqual
  | some x, some y => x = y
  | _, _ => false

/-- Row equality over the key cells selected by `indices`. -/
def keyEq (nullsEqual : Bool) (indices : List Nat) (a b : List Val) : Bool :=
  indices.all fun i => cellEq nullsEqual (a.getD i none) (b.getD i none)

/-- Rows of a table (transpose of the column values). -/
def tableRows (cols : List Column) : List (List Val) :=
  match cols with
  | [] => []
  | c :: _ => (List.range c.values.length).map fun i =>
      cols.map fun col => col.values.getD i none

/-- Rebuild columns from rows, keeping the old column names (fresh
sortedness metadata, as `DataFrame.from_table` / `Column(c, name)` do). -/
def columnsFromRows (names : List String) (rows : List (List Val)) :
    List Column :=
  names.enum.map fun (i, name) =>
    Column.fresh (rows.map fun r => r.getD i none) name

/-- Group a row list into runs of consecutive key-equal rows. -/
def consecutiveRuns (nullsEqual : Bool) (indices : List Nat) :
    List (List Val) → List (List (List Val))
  | [] => []
  | r :: rest =>
      match consecutiveRuns nullsEqual indices rest with
      | [] => [[r]]
      | (s :: run) :: runs =>
          if keyEq nullsEqual indices r s then ((r :: s :: run) :: runs)
          else [r] :: (s :: run) :: runs
      | [] :: runs => [r] :: runs

/-- Which rows of a duplicate group survive, per the keep option. -/
def keepOfRun (keep : DuplicateKeepOption) (run : List (List Val)) :
    List (List Val) :=
  match keep with
  | .keepFirst => run.take 1
  | .keepLast => run.drop (run.length - 1)
  | .keepAny => run.take 1
  | .keepNone => if run.length = 1 then run else []

/-- Modelled from the spec: `plc.stream_compaction.unique` — removes
consecutive duplicate rows (the fast path for already-sorted keys),
keeping rows per the keep option. -/
def plcUnique (rows : List (List Val)) (indices : List Nat)
    (keep : DuplicateKeepOption) (nullsEqual : Bool) : List (List Val) :=
  ((consecutiveRuns nullsEqual indices rows).map (keepOfRun keep)).flatten

/-- Modelled from the spec: `plc.stream_compaction.distinct` /
`stable_distinct` — keeps one row (per the keep option) of every distinct
key over the whole table.  The unstable variant returns the rows in
unspecified order; both variants are modelled in first-occurrence order. -/
def plcDistinct (rows : List (List Val)) (indices : List Nat)
    (keep : DuplicateKeepOption) (nullsEqual : Bool) : List (List Val) :=
  let groups := rows.foldl
    (fun (acc : List (List (List Val))) r =>
      match acc.find? (fun g => keyEq nullsEqual indices (g.getD 0 []) r) with
      | some _ => acc.map fun g =>
          if keyEq nullsEqual indices (g.getD 0 []) r then g ++ [r] else g
      | none => acc ++ [[r]]) []
  (groups.map (keepOfRun keep)).flatten

/-- Modelled from the spec: inner-join row-index pairs — every pair of a
left and a right row whose key rows compare equal (nulls per the
null-equality flag).  The order of pairs is unspecified by the collaborator
and fixed here as left-major. -/
def innerJoinPairs (lkeys rkeys : List (List Val)) (nullsEqual : Bool) :
    List (Nat × Nat) :=
  (lkeys.enum.map fun (i, lrow) =>
    (rkeys.enum.filter fun (_, rrow) =>
      (lrow.zip rrow).all fun p => cellEq nullsEqual p.1 p.2).map
      fun (j, _) => (i, j)).flatten

/-- Modelled from the spec: `plc.join.full_join` — index pairs for matches,
plus (left row, no right row) for unmatched left rows and (no left row,
right row) for unmatched right rows; unmatched sides are out-of-range
sentinels that the `NULLIFY` gather policy turns into null rows, modelled
directly as missing indices. -/
def fullJoinPairs (lkeys rkeys : List (List Val)) (nullsEqual : Bool) :
    List (Option Nat) × List (Option Nat) :=
  let inner := innerJoinPairs lkeys rkeys nullsEqual
  let leftUnmatched := (List.range lkeys.length).filter fun i =>
    inner.all fun p => p.1 ≠ i
  let rightUnmatched := (List.range rkeys.length).filter fun j =>
    inner.all fun p => p.2 ≠ j
  ((inner.map fun p => some p.1) ++ leftUnmatched.map some
      ++ rightUnmatched.map fun _ => none,
   (inner.map fun p => some p.2) ++ leftUnmatched.map (fun _ => none)
      ++ rightUnmatched.map some)

/-- Modelled from the spec: `plc.join.left_join` — matched pairs plus
unmatched left rows with a nullified right side. -/
def leftJoinPairs (lkeys rkeys : List (List Val)) (nullsEqual : Bool) :
    List (Option Nat) × List (Option Nat) :=
  let inner := innerJoinPairs lkeys rkeys nullsEqual
  let leftUnmatched := (List.range lkeys.length).filter fun i =>
    inner.all fun p => p.1 ≠ i
  ((inner.map fun p => some p.1) ++ leftUnmatched.map some,
   (inner.map fun p => some p.2) ++ leftUnmatched.map fun _ => none)

/-- Modelled from the spec: `plc.join.inner_join` as index columns. -/
def innerJoinIdx (lkeys rkeys : List (List Val)) (nullsEqual : Bool) :
    List (Option Nat) × List (Option Nat) :=
  let inner := innerJoinPairs lkeys rkeys nullsEqual
  (inner.map fun p => some p.1, inner.map fun p => some p.2)

/-- Modelled from the spec: `plc.join.left_semi_join` — indices of left
rows with at least one match. -/
def leftSemiJoinIdx (lkeys rkeys : List (List Val)) (nullsEqual : Bool) :
    List (Option Nat) :=
  ((List.range lkeys.length).filter fun i =>
    (innerJoinPairs lkeys rkeys nullsEqual).any fun p => p.1 = i).map some

/-- Modelled from the spec: `plc.join.left_anti_join` — indices of left
rows with no match. -/
def leftAntiJoinIdx (lkeys rkeys : List (List Val)) (nullsEqual : Bool) :
    List (Option Nat) :=
  ((List.range lkeys.length).filter fun i =>
    (innerJoinPairs lkeys rkeys nullsEqual).all fun p => p.1 ≠ i).map some

/-- Gather a table by an optional-index column: a missing index yields a
null row (the `NULLIFY` policy applied to the join sentinels).  The result
is wrapped by `DataFrame.from_table`, which builds fresh columns (default
sortedness metadata). -/
def gatherByOptIdx (cols : List Column) (idx : List (Option Nat)) :
    List Column :=
  cols.map fun c =>
    Column.fresh
      (idx.map fun oi =>
        match oi with
        | none => none
        | some i => c.values.getD i none)
      c.name

/-- Modelled from the spec: `cudf_polars.utils.sorting.sort_order` — the
(nulls-last, per-key descending) options resolve to a per-key column order
(descending where flagged) and a per-key null order (nulls after the
values when nulls-last).  The utils module is not among the source files. -/
def sortOrder (descending : List Bool) (nullsLast : Bool) (numKeys : Nat) :
    List Order × List NullOrder :=
  (descending.map fun d => if d then Order.descending else Order.ascending,
   List.replicate numKeys (if nullsLast then NullOrder.after else NullOrder.before))

/-! ## Expression nodes (`cudf_polars/dsl/expr.py`) -/

/-- Source `ExecutionContext`: whole-frame, grouped or windowed evaluation. -/
inductive ExecutionContext where
  | frame
  | groupby
  | rolling
deriving DecidableEq, Repr

/-- Options tuple of the `Sort` expression: `(stable, nulls_last, descending)`. -/
structure SortOptions where
  stable : Bool
  nullsLast : Bool
  descending : Bool
deriving DecidableEq, Repr

/-- Options tuple of the `SortBy` expression: `(stable, nulls_last,
descending)` with one descending flag per key. -/
structure SortMultiOptions where
  stable : Bool
  nullsLast : Bool
  descending : List Bool
deriving DecidableEq, Repr

/-- The `options` payload handed to `Agg.__init__` (`propagate_nans` for
min/max, `ddof` for std/var, anything for the rest). -/
inductive AggOptions where
  | boolOpt (b : Bool)
  | intOpt (i : Int)
  | noneOpt
deriving DecidableEq, Repr

/-- The bound reduction `Agg.op` produced by `Agg.__init__`: the `_<name>`
method, with `propagate_nans` / `ddof` partially applied for min/max and
std/var (`functools` partial application). -/
inductive AggOp where
  | minOp (propagateNans : AggOptions)
  | maxOp (propagateNans : AggOptions)
  | medianOp
  | nuniqueOp
  | firstOp
  | lastOp
  | meanOp
  | sumOp
  | countOp
  | stdOp (ddof : AggOptions)
  | varOp (ddof : AggOptions)
deriving DecidableEq, Repr

/-- Source `plc.binaryop.BinaryOperator` (the subset exercised here). -/
inductive BinaryOperator where
  | add
  | sub
  | mul
  | equal
  | less
  | logicalAnd
  | logicalOr
deriving DecidableEq, Repr

/-- The expression-node variants of `expr.py` used by the claims.
`BooleanFunction` and the `Agg` payload mirror the source dataclasses;
an `agg` node records both the tag name and the resolved op. -/
inductive Expr where
  | literal (dtype : DType) (value : Val)
  | col (dtype : DType) (name : String)
  | len (dtype : DType)
  | booleanFunction (dtype : DType) (name : String) (options : List Val)
      (arguments : List Expr)
  | sortExpr (dtype : DType) (column : Expr) (options : SortOptions)
  | sortByExpr (dtype : DType) (column : Expr) (keys : List Expr)
      (options : SortMultiOptions)
  | gather (dtype : DType) (values : Expr) (indices : Expr)
  | filterExpr (dtype : DType) (values : Expr) (mask : Expr)
  | cast (dtype : DType) (column : Expr)
  | agg (dtype : DType) (column : Expr) (opName : String) (op : AggOp)
  | binOp (dtype : DType) (left : Expr) (right : Expr) (op : BinaryOperator)
  | namedExpr (name : String) (value : Expr)

/-- What `Expr.evaluate` returns: `Column.evaluate` mostly yields columns,
`Literal` yields a scalar, and `Len` returns the plain row count. -/
inductive EvalResult where
  | column (c : Column)
  | scalar (v : Val)
  | num (n : Nat)
deriving DecidableEq, Repr

/-- Coerce an evaluation result to a column; a scalar or plain number in a
column position is a (duck-typing) type error in the engine. -/
def asColumn (r : EvalResult) : Except Err Column :=
  match r with
  | .column c => .ok c
  | _ => .error (.typeError "expected a column")

/-- Source `plc.unary.cast`: the value conversion itself is a numeric kernel out
of the spec's scope; with the inert `DType` model it keeps the values. -/
def plcCast (_dtype : DType) (vals : List Val) : List Val := vals

/-- Elementwise binary kernel cell (standard null propagation). -/
def binOpCell (op : BinaryOperator) (a b : Val) : Val :=
  match a, b with
  | some x, some y =>
      match op with
      | .add => some (x + y)
      | .sub => some (x - y)
      | .mul => some (x * y)
      | .equal => some (if x = y then 1 else 0)
      | .less => some (if x < y then 1 else 0)
      | .logicalAnd => some (if x ≠ 0 ∧ y ≠ 0 then 1 else 0)
      | .logicalOr => some (if x ≠ 0 ∨ y ≠ 0 then 1 else 0)
  | _, _ => none

/-- Modelled from the spec: `plc.binaryop.binary_operation` with
column/scalar broadcasting. -/
def plcBinaryOperation (op : BinaryOperator) (l r : EvalResult) :
    Except Err (List Val × String) :=
  match l, r with
  | .column lc, .column rc =>
      .ok ((lc.values.zip rc.values).map (fun p => binOpCell op p.1 p.2), lc.name)
  | .column lc, .scalar v =>
      .ok (lc.values.map (fun a => binOpCell op a v), lc.name)
  | .scalar v, .column rc =>
      .ok (rc.values.map (fun b => binOpCell op v b), "")
  | _, _ => .error (.typeError "expected a column operand")

/-- The reduction kernels behind `Agg.evaluate` (`plc.reduce.reduce` +
`Column.from_scalar(..., 1)`); reductions ignore nulls and return an
invalid (null) scalar on an empty or all-null column.  The real-valued
kernels (mean/median/std/var) are numeric collaborators out of the spec's
scope and are modelled as a null scalar. -/
def aggApply (op : AggOp) (c : Column) : Column :=
  let valid := c.values.filterMap id
  match op with
  | .minOp _ => Column.fresh [valid.min?] c.name
  | .maxOp _ => Column.fresh [valid.max?] c.name
  | .sumOp => Column.fresh [if valid.isEmpty then none else some valid.sum] c.name
  | .countOp => Column.fresh [some valid.length] c.name
  | .nuniqueOp => Column.fresh [some c.values.eraseDups.length] c.name
  | .firstOp => Column.fresh (c.values.take 1) c.name
  | .lastOp => Column.fresh (c.values.drop (c.values.length - 1)) c.name
  | .medianOp | .meanOp | .stdOp _ | .varOp _ => Column.fresh [none] c.name

mutual

/-- Source `Expr.evaluate` (`expr.py`): one dispatch case per node variant; a node
variant with no `evaluate` of its own (`BooleanFunction`) falls through to
the `Expr` base class, which raises `NotImplementedError`. -/
def evalExpr (e : Expr) (df : DataFrame) (ctx : ExecutionContext) :
    Except Err EvalResult :=
  match e with
  | .literal _ v => .ok (.scalar v)
  | .col _ name => (df.getColumn name).map .column
  | .len _ => .ok (.num df.numRows)
  | .booleanFunction _ _ _ _ => .error (.notImplemented "")
  | .namedExpr name v => do
      match ← evalExpr v df ctx with
      | .column c => .ok (.column (Column.fresh c.values name))
      | .scalar s => .ok (.scalar s)
      | .num n => .ok (.num n)
  | .sortExpr _ child opts => do
      let column ← asColumn (← evalExpr child df ctx)
      let res := sortOrder [opts.descending] opts.nullsLast 1
      let o := res.1.headD .ascending
      let no := res.2.headD .before
      let sorted := plcSortVals column.values o no
      .ok (.column ((Column.fresh sorted column.name).setSorted .yes o no))
  | .sortByExpr _ child keys opts => do
      let column ← asColumn (← evalExpr child df ctx)
      let by_ ← evalExprColumns keys df ctx
      let res := sortOrder opts.descending opts.nullsLast keys.length
      let vals := plcSortByKeyVals column.values (by_.map (·.values))
        (res.1.zip res.2)
      .ok (.column (Column.fresh vals column.name))
  | .gather _ ve ie => do
      let values ← asColumn (← evalExpr ve df ctx)
      let indices ← asColumn (← evalExpr ie df ctx)
      let (lo, hi) := plcMinmax indices.values
      let n := df.numRows
      match hi, lo with
      | none, _ =>
          .error (.typeError ">= not supported between instances of NoneType and int")
      | some _, none =>
          .error (.typeError "< not supported between instances of NoneType and int")
      | some hi, some lo =>
          if hi ≥ (n : Int) ∨ lo < -(n : Int) then
            .error (.valueError "gather indices are out of bounds")
          else
            let (boundsPolicy, obj) :=
              if nullCount indices.values ≠ 0 then
                (OutOfBoundsPolicy.nullify, plcReplaceNulls indices.values n)
              else
                (OutOfBoundsPolicy.dontCheck, indices.values)
            .ok (.column (Column.fresh
              (plcGatherVals values.values obj boundsPolicy) values.name))
  | .filterExpr _ ve me => do
      let values ← asColumn (← evalExpr ve df ctx)
      let mask ← asColumn (← evalExpr me df ctx)
      let t ← plcApplyBooleanMask values.values mask.values
      .ok (.column ((Column.fresh t values.name).withSortedLike values))
  | .cast dt child => do
      let column ← asColumn (← evalExpr child df ctx)
      .ok (.column ((Column.fresh (plcCast dt column.values)
        column.name).withSortedLike column))
  | .agg _ child _ op => do
      if ctx ≠ .frame then
        .error (.notImplemented "Agg in non-frame context")
      else
        let column ← asColumn (← evalExpr child df ctx)
        .ok (.column (aggApply op column))
  | .binOp _ l r op => do
      let lv ← evalExpr l df ctx
      let rv ← evalExpr r df ctx
      let (vals, name) ← plcBinaryOperation op lv rv
      .ok (.column (Column.fresh vals name))

/-- Source `[b.evaluate(df, context=context) for b in self.by]`: evaluate a list
of expressions to columns, in order, propagating the first exception. -/
def evalExprColumns (es : List Expr) (df : DataFrame) (ctx : ExecutionContext) :
    Except Err (List Column) :=
  match es with
  | [] => .ok []
  | e :: rest => do
      let c ← asColumn (← evalExpr e df ctx)
      .ok (c :: (← evalExprColumns rest df ctx))

end

/-! ## `Agg.__init__` (construction-time validation of aggregations) -/

/-- Source `Agg._SUPPORTED`: the frozen set of names accepted by the membership
check of `Agg.__init__`. -/
def aggSupported : List String :=
  ["min", "max", "median", "nunique", "first", "last", "mean", "sum",
   "count", "std", "var", "agg_groups"]

/-- Source `Agg.__init__(dtype, column, name, options)`: reject names outside
`_SUPPORTED` with `NotImplementedError`; then resolve the handler via
`getattr(self, f"_{name}")` — which raises `AttributeError` for a listed
name with no `_<name>` method (only `agg_groups`) — and partially apply
`propagate_nans` (min/max) or `ddof` (std/var). -/
def aggInit (dtype : DType) (column : Expr) (name : String)
    (options : AggOptions) : Except Err Expr :=
  if ¬ name ∈ aggSupported then
    .error (.notImplemented ("Unsupported aggregation " ++ name))
  else
    match name with
    | "min" => .ok (.agg dtype column name (.minOp options))
    | "max" => .ok (.agg dtype column name (.maxOp options))
    | "median" => .ok (.agg dtype column name .medianOp)
    | "nunique" => .ok (.agg dtype column name .nuniqueOp)
    | "first" => .ok (.agg dtype column name .firstOp)
    | "last" => .ok (.agg dtype column name .lastOp)
    | "mean" => .ok (.agg dtype column name .meanOp)
    | "sum" => .ok (.agg dtype column name .sumOp)
    | "count" => .ok (.agg dtype column name .countOp)
    | "std" => .ok (.agg dtype column name (.stdOp options))
    | "var" => .ok (.agg dtype column name (.varOp options))
    | _ => .error (.attributeError ("Agg object has no attribute _" ++ name))

/-! ## Group-by construction (`GroupBy.check_agg`, `GroupBy.__post_init__`) -/

/-- Source `GroupBy.check_agg(agg)`: nesting depth of an aggregation request —
0 for leaves, pass-through for named-expression/binary-op/cast, one more
than the children for an aggregation node; `implode` aggregations and
unhandled node kinds raise `NotImplementedError`.  The `Expr.children`
property the source iterates is not among the provided source files;
modelled from the spec (§3): the child expression nodes of each variant. -/
def checkAgg : Expr → Except Err Nat
  | .namedExpr _ v => checkAgg v
  | .binOp _ l r _ => do .ok (max (← checkAgg l) (← checkAgg r))
  | .cast _ c => checkAgg c
  | .agg _ c name _ =>
      if name = "implode" then .error (.notImplemented "implode in groupby")
      else do .ok (1 + (← checkAgg c))
  | .len _ => .ok 0
  | .col _ _ => .ok 0
  | .literal _ _ => .ok 0
  | .booleanFunction _ _ _ _ => .error (.notImplemented "No handler")
  | .sortExpr _ _ _ => .error (.notImplemented "No handler")
  | .sortByExpr _ _ _ _ => .error (.notImplemented "No handler")
  | .gather _ _ _ => .error (.notImplemented "No handler")
  | .filterExpr _ _ _ => .error (.notImplemented "No handler")

/-- Modelled from the spec: `Expr.collect_agg(depth=0)` (§4.2), called by
`GroupBy.__post_init__` after the depth check, is not among the provided
source files.  Per the spec it collects, per aggregation request, the
(pre-evaluated input column or placeholder, reduction) request pairs for
the batched grouped-aggregation call; it fails on the same unsupported
node kinds as `check_agg`. -/
def collectAgg : Expr → Except Err (List (Option Expr × String))
  | .namedExpr _ v => collectAgg v
  | .binOp _ l r _ => do .ok ((← collectAgg l) ++ (← collectAgg r))
  | .cast _ c => collectAgg c
  | .agg _ c name _ =>
      if name = "implode" then .error (.notImplemented "implode in groupby")
      else .ok [(if name = "count" then none else some c, name)]
  | .len _ => .ok [(none, "count")]
  | .col _ _ => .ok []
  | .literal _ _ => .ok []
  | .booleanFunction _ _ _ _ => .error (.notImplemented "No handler")
  | .sortExpr _ _ _ => .error (.notImplemented "No handler")
  | .sortByExpr _ _ _ _ => .error (.notImplemented "No handler")
  | .gather _ _ _ => .error (.notImplemented "No handler")
  | .filterExpr _ _ _ => .error (.notImplemented "No handler")

/-- Source `any(GroupBy.check_agg(a) > 1 for a in agg_requests)`: Python's lazy
`any` — requests are checked in order and checking stops at the first
request of depth `> 1`; an exception from `check_agg` propagates. -/
def anyDepthExceedsOne : List Expr → Except Err Bool
  | [] => .ok false
  | a :: rest => do
      if (← checkAgg a) > 1 then .ok true else anyDepthExceedsOne rest

/-- Source `[req.collect_agg(depth=0) for req in self.agg_requests]`: collect the
aggregation infos in order, propagating the first exception. -/
def collectAggList : List Expr → Except Err (List (List (Option Expr × String)))
  | [] => .ok []
  | a :: rest => do .ok ((← collectAgg a) :: (← collectAggList rest))

/-! ## Plan nodes (`cudf_polars/dsl/ir.py`) -/

/-- A plan node's output schema: an ordered mapping column name → dtype. -/
abbrev Schema := List (String × DType)

/-- Join options tuple `(how, join_nulls, zlice, suffix, coalesce)`. -/
structure JoinOptions where
  how : String
  joinNulls : Bool
  zlice : Option (Int × Nat)
  suffix : Option String
  coalesce : Bool
deriving DecidableEq, Repr

/-- The plan-node variants needed by the claims.  `DataFrameScan` holds its
frame directly (the polars/arrow interchange is an identity in this model). -/
inductive IR where
  | dataFrameScan (schema : Schema) (df : DataFrame)
      (projection : Option (List String)) (predicate : Option Expr)
  | cacheNode (schema : Schema) (key : Nat) (value : IR)
  | unionNode (schema : Schema) (dfs : List IR) (zlice : Option (Int × Nat))
  | distinctNode (schema : Schema) (df : IR) (keep : DuplicateKeepOption)
      (subset : Option (List String)) (zlice : Option (Int × Nat))
      (stable : Bool)
  | joinNode (schema : Schema) (left : IR) (right : IR)
      (leftOn : List Expr) (rightOn : List Expr) (options : JoinOptions)

/-- The `schema` field every plan node carries. -/
def IR.schema : IR → Schema
  | .dataFrameScan s _ _ _ => s
  | .cacheNode s _ _ => s
  | .unionNode s _ _ => s
  | .distinctNode s _ _ _ _ _ => s
  | .joinNode s _ _ _ _ _ => s

/-- The group-by plan node (fields of the `GroupBy` dataclass after
`__post_init__` has filled `agg_infos`). -/
structure GroupByPlan where
  schema : Schema
  df : IR
  aggRequests : List Expr
  keys : List Expr
  maintainOrder : Bool
  options : List Val
  aggInfos : List (List (Option Expr × String))

/-- Source `GroupBy.__post_init__`: reject `maintain_order`, then reject any
aggregation request of nesting depth `> 1`, then collect the aggregation
infos. -/
def groupByConstruct (schema : Schema) (df : IR) (aggRequests keys : List Expr)
    (maintainOrder : Bool) (options : List Val) : Except Err GroupByPlan := do
  if maintainOrder then
    .error (.notImplemented "Maintaining order in groupby")
  else
    if ← anyDepthExceedsOne aggRequests then
      .error (.notImplemented "Nested aggregations in groupby")
    else do
      let infos ← collectAggList aggRequests
      .ok ⟨schema, df, aggRequests, keys, maintainOrder, options, infos⟩

/-! ## Plan-node construction checks (`__post_init__`) -/

/-- The Python `==` between a child plan node and a schema mapping inside
`Union.__post_init__` (`all(s == schema for s in self.dfs[1:])`, where `s`
iterates over the child plan nodes themselves): a dataclass instance and a
dict are never equal (cross-class equality returns `NotImplemented` on
both sides and falls back to identity), so the comparison is always false. -/
def pyEqPlanSchema (_s : IR) (_schema : Schema) : Bool := false

/-- Source `Union.__post_init__`: `schema = self.dfs[0].schema` (an `IndexError`
on an empty child list), then `if not all(s == schema for s in
self.dfs[1:]): raise ValueError("Schema mismatch")`. -/
def unionConstruct (schema : Schema) (dfs : List IR)
    (zlice : Option (Int × Nat)) : Except Err IR :=
  match dfs with
  | [] => .error (.indexError "list index out of range")
  | first :: rest =>
      if rest.all (fun s => pyEqPlanSchema s first.schema) then
        .ok (.unionNode schema dfs zlice)
      else
        .error (.valueError "Schema mismatch")

/-- Source `Join.__post_init__`: cross joins are rejected at construction. -/
def joinConstruct (schema : Schema) (left right : IR)
    (leftOn rightOn : List Expr) (options : JoinOptions) : Except Err IR :=
  if options.how = "cross" then
    .error (.notImplemented "cross join not implemented")
  else
    .ok (.joinNode schema left right leftOn rightOn options)

/-! ## Plan evaluation (`IR.evaluate`) -/

/-- The evaluation cache: a mapping from plan-node key to the computed
frame, scoped to one top-level evaluation call. -/
abbrev CacheMap := List (Nat × DataFrame)

/-- Source `cache[key]` lookup. -/
def lookupCache (s : CacheMap) (k : Nat) : Option DataFrame :=
  (s.find? fun p => p.1 = k).map (·.2)

/-- Source `dict.setdefault(key, value)`: insert the value when the key is
absent; return the mapping's value for the key afterwards. -/
def setdefaultCache (s : CacheMap) (k : Nat) (v : DataFrame) :
    CacheMap × DataFrame :=
  match lookupCache s k with
  | some old => (s, old)
  | none => (s ++ [(k, v)], v)

/-- Source `pdf.select(projection)`: columns in projection order, error when a
name is absent. -/
def DataFrame.select (df : DataFrame) (names : List String) :
    Except Err DataFrame := do
  let cols ← names.mapM df.getColumn
  pure ⟨cols⟩

/-- Modelled from the spec: `DataFrame.filter(mask)` — boolean-mask row
selection applied to every column of the frame; a filter does not reorder
the surviving rows, so each column keeps its sortedness metadata (§4.1). -/
def DataFrame.filterMask (df : DataFrame) (mask : Column) :
    Except Err DataFrame := do
  let cols ← df.columns.mapM fun c => do
    let vals ← plcApplyBooleanMask c.values mask.values
    pure { c with values := vals }
  pure ⟨cols⟩

/-- Source `DataFrameScan.evaluate`: select the stored frame's projected columns,
then apply the optional predicate filter.  (The polars/arrow interchange
round-trip and the inert-dtype schema assertion are identities here.) -/
def dataFrameScanEval (df : DataFrame) (projection : Option (List String))
    (predicate : Option Expr) : Except Err DataFrame := do
  let pdf ← match projection with
    | some names => DataFrame.select df names
    | none => pure df
  match predicate with
  | some p => do
      let mask ← asColumn (← evalExpr p pdf .frame)
      pdf.filterMask mask
  | none => pure pdf

/-- The stable distinct primitive (`plc.stream_compaction.stable_distinct`):
keeps rows in first-occurrence order. -/
def plcStableDistinctFn (rows : List (List Val)) (indices : List Nat)
    (keep : DuplicateKeepOption) (nullsEqual : Bool) : List (List Val) :=
  plcDistinct rows indices keep nullsEqual

/-- The unstable distinct primitive (`plc.stream_compaction.distinct`):
row order is unspecified by the collaborator; modelled by the same
first-occurrence order as the stable variant. -/
def plcDistinctFn (rows : List (List Val)) (indices : List Nat)
    (keep : DuplicateKeepOption) (nullsEqual : Bool) : List (List Val) :=
  plcStableDistinctFn rows indices keep nullsEqual

/-- Source `Distinct.evaluate`, after the child frame has been evaluated: key
column indices from the optional subset; the fast `unique` path when every
column of the frame is tagged sorted, the general (stable or unstable)
distinct otherwise (null-equality `EQUAL`, NaN-equality `ALL_EQUAL`);
sortedness metadata is reapplied when the fast path was taken or the
stable primitive used; finally the optional row-slice. -/
def distinctEval (keep : DuplicateKeepOption) (subset : Option (List String))
    (zlice : Option (Int × Nat)) (stable : Bool) (df : DataFrame) :
    DataFrame :=
  let indices := match subset with
    | none => List.range df.columns.length
    | some s => (df.columnNames.enum.filter fun p => p.2 ∈ s).map (·.1)
  let keysSorted := df.columns.all fun c => c.sortedness.isSorted = .yes
  let rows := tableRows df.columns
  let table :=
    if keysSorted then
      plcUnique rows indices keep true
    else
      (if stable then plcStableDistinctFn else plcDistinctFn)
        rows indices keep true
  let result : DataFrame := ⟨columnsFromRows df.columnNames table⟩
  let result :=
    if keysSorted || stable then result.withSortedLikeDF df none else result
  result.slice zlice

/-- The dispatch table `Join._joiners(how)` selects: a join primitive
returning row-index pairs together with both gather policies, or a
one-sided (semi/anti) primitive with only a left policy. -/
inductive Joiner where
  | pairJoin
      (fn : List (List Val) → List (List Val) → Bool →
        List (Option Nat) × List (Option Nat))
      (leftPolicy : OutOfBoundsPolicy) (rightPolicy : OutOfBoundsPolicy)
  | semiJoin
      (fn : List (List Val) → List (List Val) → Bool → List (Option Nat))
      (leftPolicy : OutOfBoundsPolicy)

/-- Source `Join._joiners`: the join kind → (primitive, bounds policies) mapping;
an unknown kind is `assert_never`. -/
def joiners : String → Except Err Joiner
  | "inner" => .ok (.pairJoin innerJoinIdx .dontCheck .dontCheck)
  | "left" => .ok (.pairJoin leftJoinPairs .dontCheck .nullify)
  | "outer" => .ok (.pairJoin fullJoinPairs .nullify .nullify)
  | "leftsemi" => .ok (.semiJoin leftSemiJoinIdx .dontCheck)
  | "leftanti" => .ok (.semiJoin leftAntiJoinIdx .dontCheck)
  | _ => .error (.assertionError "assert_never")

/-- Source `Join.evaluate`, after both child frames have been evaluated.  The
branch for `coalesce and how == "outer"` mirrors the source exactly: it
calls `left.replace_columns(...)` and `right.discard_columns(...)` without
binding the returned frames — transformations produce new frames (§3), so
the two calls leave `left` and `right` unchanged; the discarded values are
still built here so the translation keeps every source expression. -/
def joinEval (options : JoinOptions) (left right : DataFrame)
    (leftOn rightOn : List Expr) : Except Err DataFrame := do
  let leftOnCols ← evalExprColumns leftOn left .frame
  let rightOnCols ← evalExprColumns rightOn right .frame
  let nullsEqual := options.joinNulls
  let suffix := options.suffix.getD "_right"
  let joiner ← joiners options.how
  match joiner with
  | .semiJoin joinFn _leftPolicy =>
      let lg := joinFn (tableRows leftOnCols) (tableRows rightOnCols) nullsEqual
      let left := left.replaceColumns leftOnCols
      let result : DataFrame := ⟨gatherByOptIdx left.columns lg⟩
      pure (result.slice options.zlice)
  | .pairJoin joinFn _leftPolicy _rightPolicy =>
      let (lg, rg) :=
        joinFn (tableRows leftOnCols) (tableRows rightOnCols) nullsEqual
      let left := left.replaceColumns leftOnCols
      let right := right.replaceColumns rightOnCols
      let rightKeyNames := rightOnCols.map (·.name)
      let right :=
        if options.coalesce ∧ options.how ≠ "outer" then
          right.discardColumns rightKeyNames
        else right
      let left : DataFrame := ⟨gatherByOptIdx left.columns lg⟩
      let right : DataFrame := ⟨gatherByOptIdx right.columns rg⟩
      let _discardedCoalesce :=
        if options.coalesce ∧ options.how = "outer" then
          some
            (left.replaceColumns
              (((left.selectColumns (leftOnCols.map (·.name))).zip
                (right.selectColumns rightKeyNames)).map fun p =>
                  Column.fresh (plcReplaceNullsColumn p.1.values p.2.values)
                    p.1.name),
             right.discardColumns rightKeyNames)
        else none
      let mapping := right.columnNames.filterMap fun name =>
        if name ∈ left.columnNames then some (name, name ++ suffix) else none
      let right := right.renameColumns mapping
      let result := left.withColumns right.columns
      pure (result.slice options.zlice)

mutual

/-- Source `IR.evaluate(cache)`: state-passing translation of the recursive plan
evaluation; the third component counts how many plan-node `evaluate`
bodies were entered (one per node reached), which makes the memoization
claim about `Cache` expressible. -/
def evalIR : IR → CacheMap → Except Err DataFrame × CacheMap × Nat
  | .dataFrameScan _ df proj pred, cache =>
      (dataFrameScanEval df proj pred, cache, 1)
  | .cacheNode _ key value, cache =>
      match lookupCache cache key with
      | some f => (.ok f, cache, 1)
      | none =>
          match evalIR value cache with
          | (.ok f, cache', n) =>
              let (cache'', result) := setdefaultCache cache' key f
              (.ok result, cache'', 1 + n)
          | (.error e, cache', n) => (.error e, cache', 1 + n)
  | .unionNode _ dfs zlice, cache =>
      match evalIRList dfs cache with
      | (.ok frames, cache', n) =>
          (match frames with
           | [] => (.error (.indexError "list index out of range"), cache', 1 + n)
           | _ :: _ =>
              (.ok ((DataFrame.mk (plcConcatenateTables frames)).slice zlice),
               cache', 1 + n))
      | (.error e, cache', n) => (.error e, cache', 1 + n)
  | .distinctNode _ child keep subset zlice stable, cache =>
      match evalIR child cache with
      | (.ok f, cache', n) =>
          (.ok (distinctEval keep subset zlice stable f), cache', 1 + n)
      | (.error e, cache', n) => (.error e, cache', 1 + n)
  | .joinNode _ l r leftOn rightOn options, cache =>
      match evalIR l cache with
      | (.ok lf, cache', n) =>
          (match evalIR r cache' with
           | (.ok rf, cache'', m) =>
              (joinEval options lf rf leftOn rightOn, cache'', 1 + n + m)
           | (.error e, cache'', m) => (.error e, cache'', 1 + n + m))
      | (.error e, cache', n) => (.error e, cache', 1 + n)

/-- Sequential evaluation of a list of child plans, threading the cache. -/
def evalIRList : List IR → CacheMap → Except Err (List DataFrame) × CacheMap × Nat
  | [], cache => (.ok [], cache, 0)
  | d :: rest, cache =>
      match evalIR d cache with
      | (.ok f, cache', n) =>
          (match evalIRList rest cache' with
           | (.ok fs, cache'', m) => (.ok (f :: fs), cache'', n + m)
           | (.error e, cache'', m) => (.error e, cache'', n + m))
      | (.error e, cache', n) => (.error e, cache', n)

end

/-! ## Spec-side descriptions for the refinement claims -/

/-- The `Distinct` behaviour exactly as claim C9 words it: the fast
`unique` path is taken exactly when all KEY columns of the input frame are
tagged sorted; otherwise the general (stable when maintain-order is set,
else unstable) distinct primitive with null-equality and NaN-equality; in
either case sortedness tags are reapplied (when sorted or stable) and the
optional row-slice is applied. -/
def distinctClaimSpec (keep : DuplicateKeepOption) (subset : Option (List String))
    (zlice : Option (Int × Nat)) (stable : Bool) (df : DataFrame) : DataFrame :=
  let keyIndices := match subset with
    | none => List.range df.columns.length
    | some s => (df.columnNames.enum.filter fun p => p.2 ∈ s).map (·.1)
  let keyColumnsSorted :=
    (df.columns.filter fun c =>
      (match subset with | none => true | some s => decide (c.name ∈ s))).all
      fun c => c.sortedness.isSorted = .yes
  let deduped :=
    if keyColumnsSorted then
      plcUnique (tableRows df.columns) keyIndices keep true
    else
      (if stable then plcStableDistinctFn else plcDistinctFn)
        (tableRows df.columns) keyIndices keep true
  let result : DataFrame := ⟨columnsFromRows df.columnNames deduped⟩
  let retagged :=
    if keyColumnsSorted || stable then result.withSortedLikeDF df none else result
  retagged.slice zlice

/-- The amended C9 behaviour: identical to `distinctClaimSpec` except that
the fast-path condition tests ALL columns of the input frame (the source's
`keys_sorted = all(c.is_sorted for c in df.columns)`), not only the key
columns. -/
def distinctSpecAmended (keep : DuplicateKeepOption) (subset : Option (List String))
    (zlice : Option (Int × Nat)) (stable : Bool) (df : DataFrame) : DataFrame :=
  let keyIndices := match subset with
    | none => List.range df.columns.length
    | some s => (df.columnNames.enum.filter fun p => p.2 ∈ s).map (·.1)
  let allColumnsSorted := df.columns.all fun c => c.sortedness.isSorted = .yes
  let deduped :=
    if allColumnsSorted then
      plcUnique (tableRows df.columns) keyIndices keep true
    else
      (if stable then plcStableDistinctFn else plcDistinctFn)
        (tableRows df.columns) keyIndices keep true
  let result : DataFrame := ⟨columnsFromRows df.columnNames deduped⟩
  let retagged :=
    if allColumnsSorted || stable then result.withSortedLikeDF df none else result
  retagged.slice zlice

/-! ## Concrete fixtures for witnesses and counterexamples -/

/-- A one-column boolean frame holding `[True, NULL]`. -/
def exBoolFrame : DataFrame := ⟨[⟨[some 1, none], "a", defaultSortedness⟩]⟩

/-- Values `[10, 20]` with an all-null index column. -/
def exAllNullIdxFrame : DataFrame :=
  ⟨[⟨[some 10, some 20], "v", defaultSortedness⟩,
    ⟨[none, none], "i", defaultSortedness⟩]⟩

/-- Values `[10, 20]` with the in-range index column `[NULL, -1]`. -/
def exMixedIdxFrame : DataFrame :=
  ⟨[⟨[some 10, some 20], "v", defaultSortedness⟩,
    ⟨[none, some (-1)], "i", defaultSortedness⟩]⟩

/-- Values `[10, 20]` with the out-of-range index column `[2, 0]`. -/
def exOobIdxFrame : DataFrame :=
  ⟨[⟨[some 10, some 20], "v", defaultSortedness⟩,
    ⟨[some 1, some (-3)], "i", defaultSortedness⟩]⟩

/-- A sorted-tagged values column with a boolean mask column. -/
def exFilterFrame : DataFrame :=
  ⟨[⟨[some 1, some 2, some 3], "v", ⟨.yes, .ascending, .after⟩⟩,
    ⟨[some 1, none, some 0], "m", defaultSortedness⟩]⟩

/-- A two-column frame used by the sort and cache fixtures. -/
def exSortFrame : DataFrame :=
  ⟨[⟨[some 1, none], "a", defaultSortedness⟩,
    ⟨[some 10, some 20], "b", defaultSortedness⟩]⟩

/-- A leaf plan node evaluating to `exSortFrame`. -/
def exScanLeaf : IR :=
  .dataFrameScan [("a", "int64"), ("b", "int64")] exSortFrame none none

/-- Key column `a` tagged sorted, non-key column `b` untagged. -/
def exDistinctFrame : DataFrame :=
  ⟨[⟨[some 1, some 2], "a", ⟨.yes, .ascending, .before⟩⟩,
    ⟨[some 5, some 4], "b", defaultSortedness⟩]⟩

/-- Left side of the outer-join fixture (`a` holds a null key). -/
def exJoinLeftFrame : DataFrame :=
  ⟨[⟨[some 1, none], "a", defaultSortedness⟩,
    ⟨[some 10, some 20], "b", defaultSortedness⟩]⟩

/-- Right side of the outer-join fixture. -/
def exJoinRightFrame : DataFrame :=
  ⟨[⟨[some 1, some 3], "a", defaultSortedness⟩,
    ⟨[some 7, some 8], "c", defaultSortedness⟩]⟩

/-- An outer join on key `a` with coalescing requested. -/
def exOuterJoinNode : IR :=
  .joinNode [] (.dataFrameScan [("a", "int64"), ("b", "int64")] exJoinLeftFrame none none)
    (.dataFrameScan [("a", "int64"), ("c", "int64")] exJoinRightFrame none none)
    [.col "int64" "a"] [.col "int64" "a"]
    ⟨"outer", false, none, none, true⟩

/-- What the source computes for `exOuterJoinNode`: the right key column
survives (renamed `a_right`) and the left key's nulls are not filled. -/
def exOuterJoinResult : DataFrame :=
  ⟨[Column.fresh [some 1, none, none] "a",
    Column.fresh [some 10, some 20, none] "b",
    Column.fresh [some 1, none, some 3] "a_right",
    Column.fresh [some 7, none, some 8] "c"]⟩

/-- Two union children with identical schemas (different data). -/
def exUnionChildA : IR :=
  .dataFrameScan [("a", "int64")] ⟨[⟨[some 1], "a", defaultSortedness⟩]⟩ none none

/-- Second union child, same schema as `exUnionChildA`. -/
def exUnionChildB : IR :=
  .dataFrameScan [("a", "int64")] ⟨[⟨[some 2], "a", defaultSortedness⟩]⟩ none none

/-! ## Supporting lemmas -/

@[simp]
theorem exceptBind_ok {α β : Type} (a : α) (f : α → Except Err β) :
    (Except.ok a >>= f) = f a := rfl

@[simp]
theorem exceptBind_err {α β : Type} (e : Err) (f : α → Except Err β) :
    ((Except.error e : Except Err α) >>= f) = Except.error e := rfl

/-- If the depth check reported no deep request, every request's depth was
computed and is at most 1. -/
theorem anyDepth_false_all_shallow :
    ∀ (reqs : List Expr), anyDepthExceedsOne reqs = .ok false →
      ∀ a ∈ reqs, ∃ d, checkAgg a = .ok d ∧ d ≤ 1 := by
  intro reqs
  induction reqs with
  | nil => intro _ a ha; cases ha
  | cons x rest ih =>
      intro h a ha
      rw [anyDepthExceedsOne] at h
      cases hx : checkAgg x with
      | error e => rw [hx] at h; simp at h
      | ok d =>
          rw [hx] at h
          simp only [exceptBind_ok] at h
          by_cases hd : d > 1
          · rw [if_pos hd] at h; simp at h
          · rw [if_neg hd] at h
            rcases List.mem_cons.mp ha with rfl | ha'
            · exact ⟨d, hx, by omega⟩
            · exact ih h a ha'

/-- Conversely, when every request is shallow the depth check passes. -/
theorem anyDepth_false_of_all_shallow :
    ∀ (reqs : List Expr), (∀ a ∈ reqs, ∃ d, checkAgg a = .ok d ∧ d ≤ 1) →
      anyDepthExceedsOne reqs = .ok false := by
  intro reqs
  induction reqs with
  | nil => intro _; rfl
  | cons x rest ih =>
      intro h
      obtain ⟨d, hd, hd1⟩ := h x (List.mem_cons_self x rest)
      rw [anyDepthExceedsOne, hd]
      simp only [exceptBind_ok]
      rw [if_neg (by omega)]
      exact ih fun a ha => h a (List.mem_cons_of_mem _ ha)

/-- A request accepted by `check_agg` is also collected by `collect_agg`. -/
theorem collectAgg_ok_of_checkAgg_ok :
    (e : Expr) → (d : Nat) → checkAgg e = .ok d →
      ∃ i, collectAgg e = .ok i
  | .namedExpr n v, d, h => by
      rw [checkAgg] at h
      obtain ⟨i, hi⟩ := collectAgg_ok_of_checkAgg_ok v d h
      exact ⟨i, by rw [collectAgg]; exact hi⟩
  | .binOp dt l r op, d, h => by
      rw [checkAgg] at h
      cases hl : checkAgg l with
      | error e => rw [hl] at h; simp at h
      | ok dl =>
          rw [hl] at h
          cases hr : checkAgg r with
          | error e => rw [hr] at h; simp at h
          | ok dr =>
              obtain ⟨il, hil⟩ := collectAgg_ok_of_checkAgg_ok l dl hl
              obtain ⟨ir, hir⟩ := collectAgg_ok_of_checkAgg_ok r dr hr
              refine ⟨il ++ ir, ?_⟩
              rw [collectAgg, hil]
              simp only [exceptBind_ok]
              rw [hir]
              rfl
  | .cast dt c, d, h => by
      rw [checkAgg] at h
      obtain ⟨i, hi⟩ := collectAgg_ok_of_checkAgg_ok c d h
      exact ⟨i, by rw [collectAgg]; exact hi⟩
  | .agg dt c name op, d, h => by
      rw [checkAgg] at h
      by_cases hname : name = "implode"
      · rw [if_pos hname] at h; simp at h
      · rw [if_neg hname] at h
        cases hc : checkAgg c with
        | error e => rw [hc] at h; simp at h
        | ok dc =>
            refine ⟨[(if name = "count" then none else some c, name)], ?_⟩
            rw [collectAgg, if_neg hname]
  | .len dt, d, h => ⟨[(none, "count")], rfl⟩
  | .col dt n, d, h => ⟨[], rfl⟩
  | .literal dt v, d, h => ⟨[], rfl⟩
  | .booleanFunction dt n o a, d, h => by rw [checkAgg] at h; simp at h
  | .sortExpr dt c o, d, h => by rw [checkAgg] at h; simp at h
  | .sortByExpr dt c k o, d, h => by rw [checkAgg] at h; simp at h
  | .gather dt v i, d, h => by rw [checkAgg] at h; simp at h
  | .filterExpr dt v m, d, h => by rw [checkAgg] at h; simp at h

/-- Shallow requests are all collected. -/
theorem collectAggList_ok_of_all_shallow :
    ∀ (reqs : List Expr), (∀ a ∈ reqs, ∃ d, checkAgg a = .ok d ∧ d ≤ 1) →
      ∃ is, collectAggList reqs = .ok is := by
  intro reqs
  induction reqs with
  | nil => intro _; exact ⟨[], rfl⟩
  | cons x rest ih =>
      intro h
      obtain ⟨d, hd, _⟩ := h x (List.mem_cons_self x rest)
      obtain ⟨i, hi⟩ := collectAgg_ok_of_checkAgg_ok x d hd
      obtain ⟨is, his⟩ := ih fun a ha => h a (List.mem_cons_of_mem _ ha)
      refine ⟨i :: is, ?_⟩
      rw [collectAggList, hi]
      simp only [exceptBind_ok]
      rw [his]
      rfl

/-- A successful group-by construction implies the depth check passed. -/
theorem construct_ok_depth_check (s : Schema) (df : IR)
    (reqs keys : List Expr) (mo : Bool) (opts : List Val) (p : GroupByPlan)
    (h : groupByConstruct s df reqs keys mo opts = .ok p) :
    mo = false ∧ anyDepthExceedsOne reqs = .ok false := by
  rw [groupByConstruct] at h
  cases mo with
  | true => simp at h
  | false =>
      refine ⟨rfl, ?_⟩
      simp only [Bool.false_eq_true, if_false] at h
      cases hA : anyDepthExceedsOne reqs with
      | error e => rw [hA] at h; simp at h
      | ok b =>
          cases b with
          | true => rw [hA] at h; simp at h
          | false => rfl

/-! ## Claim theorems -/

/-- C1 (counterexample): evaluating the `All` boolean function over the
boolean column `[True, NULL]` raises `NotImplementedError` instead of
producing the Kleene-table result NULL: `BooleanFunction` defines no
`evaluate`, so evaluation falls through to the raising `Expr` base class. -/
theorem booleanFunction_all_true_null_not_kleene :
    evalExpr (.booleanFunction "bool" "All" [] [.col "bool" "a"])
      exBoolFrame .frame = .error (.notImplemented "") := rfl

/-- C1 (amended): evaluating any `BooleanFunction` expression — `Any` and
`All` included — raises `NotImplementedError`; no Kleene three-valued
evaluation is performed. -/
theorem booleanFunction_any_all_unimplemented (dt : DType) (name : String)
    (opts : List Val) (args : List Expr) (df : DataFrame)
    (ctx : ExecutionContext) :
    evalExpr (.booleanFunction dt name opts args) df ctx
      = .error (.notImplemented "") := rfl

/-- C2 (code bug): gathering values `[10, 20]` with an all-null index
column — every non-null index vacuously lies in `[-2, 2)`, so the claim
requires two null result rows — instead raises a `TypeError`:
`plc.reduce.minmax` of an all-null column gives invalid scalars that
convert to Python `None`, and the bounds check `hi >= n` then compares
`None` against an `int`. -/
theorem gather_all_null_indices_type_error :
    evalExpr (.gather "int64" (.col "int64" "v") (.col "int64" "i"))
      exAllNullIdxFrame .frame
      = .error (.typeError ">= not supported between instances of NoneType and int") :=
  rfl

/-- With at least one non-null index the gather behaves as C2 describes:
indices `[NULL, -1]` over values `[10, 20]` give a null row (nullify
policy) and the last value (negative index from the end). -/
theorem gather_nullify_in_range_example :
    evalExpr (.gather "int64" (.col "int64" "v") (.col "int64" "i"))
      exMixedIdxFrame .frame
      = .ok (.column (Column.fresh [none, some 20] "v")) := rfl

/-- An out-of-range non-null index (`-3` with `n = 2`) raises the bounds
error before any gather, as C2 describes. -/
theorem gather_out_of_bounds_example :
    evalExpr (.gather "int64" (.col "int64" "v") (.col "int64" "i"))
      exOobIdxFrame .frame
      = .error (.valueError "gather indices are out of bounds") := rfl

/-- C6 (counterexample): the name `agg_groups` lies outside the claim's
eleven-name set, yet constructing an `Agg` with it does not raise the
unsupported-aggregation error: it passes the `_SUPPORTED` membership check
(which also lists `agg_groups`) and then fails the `getattr` handler
lookup with a distinct `AttributeError`. -/
theorem agg_groups_raises_attribute_error :
    aggInit "int64" (.col "int64" "x") "agg_groups" .noneOpt
      = .error (.attributeError "Agg object has no attribute _agg_groups") ∧
    Err.attributeError "Agg object has no attribute _agg_groups"
      ≠ Err.notImplemented "Unsupported aggregation agg_groups" :=
  ⟨rfl, by decide⟩

/-- C7 (code bug): evaluating a coalescing outer join on key `a` — left
keys `[1, NULL]`, right keys `[1, 3]` — returns a frame that still
contains the right key column (renamed `a_right`) and whose left key
column keeps its nulls: the source's `left.replace_columns(...)` and
`right.discard_columns(...)` calls in the outer-coalesce branch drop
their returned frames. -/
theorem outer_coalesce_join_leaves_right_keys :
    evalIR exOuterJoinNode [] = (.ok exOuterJoinResult, [], 3) ∧
    exOuterJoinResult.columnNames = ["a", "b", "a_right", "c"] ∧
    (exOuterJoinResult.getColumn "a").map Column.values
      = .ok [some 1, none, none] :=
  ⟨rfl, rfl, rfl⟩

/-- C8 (counterexample): `SortBy` of column `b` keyed by `a` returns a
column with DEFAULT (untagged) sortedness metadata — `SortBy.evaluate`
wraps the sorted values in a plain `Column` without `set_sorted` — while
the claim says the result is tagged as sorted. -/
theorem sortby_concrete_untagged :
    evalExpr (.sortByExpr "int64" (.col "int64" "b") [.col "int64" "a"]
      ⟨true, true, [true]⟩) exSortFrame .frame
      = .ok (.column ⟨[some 10, some 20], "b", defaultSortedness⟩) ∧
    defaultSortedness.isSorted = .no :=
  ⟨rfl, rfl⟩

/-- C9 (counterexample): on a frame whose key column `a` is tagged sorted
but whose non-key column `b` is not, the claim's fast-path condition (all
KEY columns sorted) requires the unique path with sortedness reapplied,
but `Distinct.evaluate` tests ALL columns, takes the general unstable
path, and returns the key column untagged. -/
theorem distinct_fast_path_checks_all_columns :
    distinctEval .keepAny (some ["a"]) none false exDistinctFrame
      ≠ distinctClaimSpec .keepAny (some ["a"]) none false exDistinctFrame ∧
    ((distinctEval .keepAny (some ["a"]) none false exDistinctFrame).getColumn
      "a").map (fun c => c.sortedness.isSorted) = .ok .no ∧
    ((distinctClaimSpec .keepAny (some ["a"]) none false
      exDistinctFrame).getColumn "a").map (fun c => c.sortedness.isSorted)
      = .ok .yes :=
  ⟨by decide, rfl, rfl⟩

/-- C9 (amended): `Distinct.evaluate` coincides with the claim's
description once the fast-path condition reads "all columns of the input
frame are tagged sorted" instead of "all key columns". -/
theorem distinct_matches_amended_spec (keep : DuplicateKeepOption)
    (subset : Option (List String)) (zlice : Option (Int × Nat))
    (stable : Bool) (df : DataFrame) :
    distinctEval keep subset zlice stable df
      = distinctSpecAmended keep subset zlice stable df := rfl

/-- C10 (code bug): a union of two children with IDENTICAL schemas still
raises `ValueError("Schema mismatch")`: `Union.__post_init__` compares
each child plan node itself against the schema mapping (`s == schema`),
which is false for every child, instead of comparing the child's schema. -/
theorem union_identical_schemas_rejected :
    exUnionChildA.schema = exUnionChildB.schema ∧
    unionConstruct [("a", "int64")] [exUnionChildA, exUnionChildB] none
      = .error (.valueError "Schema mismatch") :=
  ⟨rfl, rfl⟩

/-- A union with a single child does construct (the generator in
`__post_init__` is empty), so construction is possible at all. -/
theorem union_single_child_constructs :
    unionConstruct [("a", "int64")] [exUnionChildA] none
      = .ok (.unionNode [("a", "int64")] [exUnionChildA] none) := rfl

/-- C3: a group-by aggregation request whose `check_agg` depth exceeds 1
is rejected with an error at plan construction (`__post_init__`); an
`implode` aggregation is rejected by `check_agg` itself and hence at
construction whenever it occurs among the requests; and every request
list whose depths are all at most 1 passes the construction checks. -/
theorem groupby_nested_and_implode_rejected :
    (∀ (s : Schema) (df : IR) (reqs keys : List Expr) (mo : Bool)
        (opts : List Val),
      (∃ a ∈ reqs, ∃ d, checkAgg a = .ok d ∧ d > 1) →
      ∃ e, groupByConstruct s df reqs keys mo opts = .error e) ∧
    (∀ (dt : DType) (c : Expr) (o : AggOp),
      checkAgg (.agg dt c "implode" o)
        = .error (.notImplemented "implode in groupby")) ∧
    (∀ (s : Schema) (df : IR) (reqs keys : List Expr) (mo : Bool)
        (opts : List Val) (dt : DType) (c : Expr) (o : AggOp),
      (Expr.agg dt c "implode" o) ∈ reqs →
      ∃ e, groupByConstruct s df reqs keys mo opts = .error e) ∧
    (∀ (s : Schema) (df : IR) (reqs keys : List Expr) (opts : List Val),
      (∀ a ∈ reqs, ∃ d, checkAgg a = .ok d ∧ d ≤ 1) →
      ∃ p, groupByConstruct s df reqs keys false opts = .ok p) := by
  refine ⟨?_, ?_, ?_, ?_⟩
  · intro s df reqs keys mo opts hdeep
    obtain ⟨a, ha, d, hd, hd1⟩ := hdeep
    cases h : groupByConstruct s df reqs keys mo opts with
    | error e => exact ⟨e, rfl⟩
    | ok p =>
        exfalso
        obtain ⟨-, hA⟩ := construct_ok_depth_check s df reqs keys mo opts p h
        obtain ⟨d', hd', hle⟩ := anyDepth_false_all_shallow reqs hA a ha
        rw [hd] at hd'
        cases hd'
        omega
  · intro dt c o
    simp [checkAgg]
  · intro s df reqs keys mo opts dt c o hmem
    cases h : groupByConstruct s df reqs keys mo opts with
    | error e => exact ⟨e, rfl⟩
    | ok p =>
        exfalso
        obtain ⟨-, hA⟩ := construct_ok_depth_check s df reqs keys mo opts p h
        obtain ⟨d', hd', -⟩ := anyDepth_false_all_shallow reqs hA _ hmem
        simp [checkAgg] at hd'
  · intro s df reqs keys opts hall
    have hA := anyDepth_false_of_all_shallow reqs hall
    obtain ⟨is, hC⟩ := collectAggList_ok_of_all_shallow reqs hall
    refine ⟨⟨s, df, reqs, keys, false, opts, is⟩, ?_⟩
    rw [groupByConstruct]
    simp only [Bool.false_eq_true, if_false]
    rw [hA]
    simp only [exceptBind_ok, Bool.false_eq_true, if_false]
    rw [hC]
    rfl

/-- C3 (witness): a nested `sum(mean(b))` request is rejected, a direct
`implode` request is rejected, and a plain `sum(b)` request is accepted,
all at construction. -/
theorem groupby_nested_and_implode_rejected_witness :
    (∃ e, groupByConstruct [] exScanLeaf
      [.agg "int64" (.agg "int64" (.col "int64" "b") "mean" .meanOp)
        "sum" .sumOp] [] false [] = .error e) ∧
    (∃ e, groupByConstruct [] exScanLeaf
      [.agg "int64" (.col "int64" "b") "implode" .sumOp] [] false []
        = .error e) ∧
    (∃ p, groupByConstruct [] exScanLeaf
      [.agg "int64" (.col "int64" "b") "sum" .sumOp] [] false [] = .ok p) := by
  refine ⟨?_, ?_, ?_⟩
  · exact groupby_nested_and_implode_rejected.1 _ _ _ _ _ _
      ⟨_, List.mem_cons_self _ _, 2, rfl, by omega⟩
  · exact groupby_nested_and_implode_rejected.2.2.1 _ _ _ _ _ _ "int64"
      (.col "int64" "b") .sumOp (List.mem_cons_self _ _)
  · refine groupby_nested_and_implode_rejected.2.2.2 _ _ _ _ _ ?_
    intro a ha
    rw [List.mem_singleton] at ha
    subst ha
    exact ⟨1, rfl, by omega⟩

/-- Cache lookup after appending a fresh binding for an absent key. -/
theorem lookupCache_append_of_none (s : CacheMap) (k : Nat) (v : DataFrame)
    (h : lookupCache s k = none) :
    lookupCache (s ++ [(k, v)]) k = some v := by
  induction s with
  | nil => simp [lookupCache, List.find?]
  | cons p rest ih =>
      by_cases hp : p.1 = k
      · rw [lookupCache, List.find?_cons_of_pos _ (by simp [hp])] at h
        simp at h
      · rw [lookupCache, List.find?_cons_of_neg _ (by simp [hp])] at h
        rw [lookupCache, List.cons_append,
          List.find?_cons_of_neg _ (by simp [hp])]
        exact ih h

/-- Source `setdefault` leaves the cache holding exactly the value it returns. -/
theorem setdefault_lookup (s : CacheMap) (k : Nat) (v : DataFrame) :
    lookupCache (setdefaultCache s k v).1 k
      = some (setdefaultCache s k v).2 := by
  rw [setdefaultCache]
  cases hl : lookupCache s k with
  | some old => simpa using hl
  | none => simpa using lookupCache_append_of_none s k v hl

/-- C4: evaluating a `Cache` node twice under one evaluation cache runs
the wrapped child exactly once.  The node-entry counter makes this
explicit: with the key absent, the first evaluation enters `1 + n` nodes
(`n` of them inside the child) and stores the frame; the second
evaluation enters only the `Cache` node itself (count 1) and returns the
memoized frame unchanged. -/
theorem cache_second_evaluation_memoized (sch : Schema) (k : Nat) (v : IR)
    (s : CacheMap) (f : DataFrame) (s' : CacheMap) (n : Nat)
    (habs : lookupCache s k = none)
    (hch : evalIR v s = (.ok f, s', n)) :
    ∃ g s'', evalIR (.cacheNode sch k v) s = (.ok g, s'', 1 + n) ∧
      evalIR (.cacheNode sch k v) s'' = (.ok g, s'', 1) := by
  refine ⟨(setdefaultCache s' k f).2, (setdefaultCache s' k f).1, ?_, ?_⟩
  · rw [evalIR, habs, hch]
  · rw [evalIR, setdefault_lookup s' k f]

/-- C4 (witness): caching a leaf scan under an empty cache — the first
evaluation enters two nodes, the second only the cache node. -/
theorem cache_second_evaluation_memoized_witness :
    ∃ g s'', evalIR (.cacheNode [] 7 exScanLeaf) [] = (.ok g, s'', 1 + 1) ∧
      evalIR (.cacheNode [] 7 exScanLeaf) s'' = (.ok g, s'', 1) :=
  cache_second_evaluation_memoized [] 7 exScanLeaf [] exSortFrame [] 1
    rfl rfl

/-- The boolean-mask filter keeps exactly one row per true mask cell. -/
theorem filter_kept_length :
    ∀ (vals mask : List Val), vals.length = mask.length →
      (((vals.zip mask).filter fun p => isTrueCell p.2).map (·.1)).length
        = mask.countP (fun v => isTrueCell v) := by
  intro vals
  induction vals with
  | nil =>
      intro mask h
      cases mask with
      | nil => simp
      | cons m ms => simp at h
  | cons x xs ih =>
      intro mask h
      cases mask with
      | nil => simp at h
      | cons m ms =>
          have h' : xs.length = ms.length := by simpa using h
          by_cases hm : isTrueCell m
          · simp [List.zip_cons_cons, List.filter_cons, hm,
              List.countP_cons, ih ms h']
          · simp [List.zip_cons_cons, List.filter_cons, hm,
              List.countP_cons, ih ms h']

/-- C5: the `Filter` expression copies the values column's sortedness
metadata onto the result and returns as many rows as the mask has true
cells. -/
theorem filter_preserves_sortedness_and_row_count (dt : DType)
    (ve me : Expr) (df : DataFrame) (c m : Column)
    (hv : evalExpr ve df .frame = .ok (.column c))
    (hm : evalExpr me df .frame = .ok (.column m))
    (hlen : c.values.length = m.values.length) :
    ∃ c', evalExpr (.filterExpr dt ve me) df .frame = .ok (.column c') ∧
      c'.sortedness = c.sortedness ∧
      c'.values.length = m.values.countP (fun v => isTrueCell v) := by
  rw [evalExpr, hv, hm]
  simp only [exceptBind_ok, asColumn]
  rw [plcApplyBooleanMask, if_pos hlen]
  simp only [exceptBind_ok]
  exact ⟨_, rfl, rfl, filter_kept_length c.values m.values hlen⟩

/-- C5 (witness): filtering the sorted-tagged column `[1, 2, 3]` with the
mask `[True, NULL, False]` keeps the tag and one row. -/
theorem filter_preserves_sortedness_and_row_count_witness :
    ∃ c', evalExpr (.filterExpr "int64" (.col "int64" "v")
        (.col "int64" "m")) exFilterFrame .frame = .ok (.column c') ∧
      c'.sortedness = ⟨.yes, .ascending, .after⟩ ∧
      c'.values.length = 1 := by
  obtain ⟨c', h1, h2, h3⟩ :=
    filter_preserves_sortedness_and_row_count "int64"
      (.col "int64" "v") (.col "int64" "m") exFilterFrame
      ⟨[some 1, some 2, some 3], "v", ⟨.yes, .ascending, .after⟩⟩
      ⟨[some 1, none, some 0], "m", defaultSortedness⟩ rfl rfl rfl
  exact ⟨c', h1, h2, by simpa using h3⟩

/-- C6 (amended): constructing an `Agg` succeeds exactly for the eleven
names {min, max, median, nunique, first, last, mean, sum, count, std,
var}; a name outside the source's `_SUPPORTED` set (the eleven plus
`agg_groups`) raises the unsupported-aggregation `NotImplementedError`;
the listed name `agg_groups` instead fails the `getattr` handler lookup
with `AttributeError`. -/
theorem agg_construction_supported_names (dt : DType) (c : Expr)
    (name : String) (o : AggOptions) :
    ((∃ e, aggInit dt c name o = .ok e) ↔
      name ∈ ["min", "max", "median", "nunique", "first", "last", "mean",
        "sum", "count", "std", "var"]) ∧
    (¬ name ∈ aggSupported →
      aggInit dt c name o
        = .error (.notImplemented ("Unsupported aggregation " ++ name))) ∧
    aggInit dt c "agg_groups" o
      = .error (.attributeError "Agg object has no attribute _agg_groups") := by
  refine ⟨?_, ?_, rfl⟩
  · by_cases h : name ∈ aggSupported
    · simp only [aggSupported] at h
      fin_cases h <;> simp [aggInit, aggSupported]
    · constructor
      · intro he
        obtain ⟨e, he⟩ := he
        rw [aggInit.eq_def, if_pos h] at he
        simp at he
      · intro hmem
        exfalso
        apply h
        fin_cases hmem <;> decide
  · intro h
    rw [aggInit.eq_def, if_pos h]

/-- C6 (witness): `median` constructs while the unlisted name `bogus`
raises the unsupported-aggregation error. -/
theorem agg_construction_supported_names_witness :
    (∃ e, aggInit "int64" (.col "int64" "x") "median" .noneOpt = .ok e) ∧
    aggInit "int64" (.col "int64" "x") "bogus" .noneOpt
      = .error (.notImplemented ("Unsupported aggregation " ++ "bogus")) :=
  ⟨(agg_construction_supported_names "int64" (.col "int64" "x") "median"
      .noneOpt).1.mpr (by decide),
   (agg_construction_supported_names "int64" (.col "int64" "x") "bogus"
      .noneOpt).2.1 (by decide)⟩

/-- C8 (amended): a successfully evaluated `Sort` expression returns a
column tagged sorted with the order and null order resolved from its
option tuple; a successfully evaluated `SortBy` expression returns a
column carrying the default (untagged) sortedness metadata. -/
theorem sort_tags_sorted_sortby_leaves_untagged :
    (∀ (dt : DType) (child : Expr) (opts : SortOptions) (df : DataFrame)
        (r : EvalResult),
      evalExpr (.sortExpr dt child opts) df .frame = .ok r →
      ∃ vals name, r = .column ⟨vals, name,
        ⟨.yes, (sortOrder [opts.descending] opts.nullsLast 1).1.headD .ascending,
          (sortOrder [opts.descending] opts.nullsLast 1).2.headD .before⟩⟩) ∧
    (∀ (dt : DType) (child : Expr) (keys : List Expr)
        (opts : SortMultiOptions) (df : DataFrame) (r : EvalResult),
      evalExpr (.sortByExpr dt child keys opts) df .frame = .ok r →
      ∃ vals name, r = .column ⟨vals, name, defaultSortedness⟩) := by
  constructor
  · intro dt child opts df r h
    rw [evalExpr] at h
    cases hc : evalExpr child df .frame with
    | error e => rw [hc] at h; simp at h
    | ok rv =>
        rw [hc] at h
        simp only [exceptBind_ok] at h
        cases rv with
        | column c =>
            simp only [asColumn, exceptBind_ok] at h
            cases h
            exact ⟨_, _, rfl⟩
        | scalar v => simp [asColumn] at h
        | num n => simp [asColumn] at h
  · intro dt child keys opts df r h
    rw [evalExpr] at h
    cases hc : evalExpr child df .frame with
    | error e => rw [hc] at h; simp at h
    | ok rv =>
        rw [hc] at h
        simp only [exceptBind_ok] at h
        cases rv with
        | column c =>
            simp only [asColumn, exceptBind_ok] at h
            cases hk : evalExprColumns keys df .frame with
            | error e => rw [hk] at h; simp at h
            | ok ks =>
                rw [hk] at h
                simp only [exceptBind_ok] at h
                cases h
                exact ⟨_, _, rfl⟩
        | scalar v => simp [asColumn] at h
        | num n => simp [asColumn] at h

/-- C8 (witness): sorting column `b` ascending/nulls-last tags the result
sorted-ascending with nulls after; sorting `b` by key `a` leaves the
result untagged. -/
theorem sort_tags_sorted_sortby_leaves_untagged_witness :
    (∃ r, evalExpr (.sortExpr "int64" (.col "int64" "b") ⟨true, true, false⟩)
        exSortFrame .frame = .ok r ∧
      ∃ vals name, r = .column ⟨vals, name,
        ⟨.yes, (sortOrder [false] true 1).1.headD .ascending,
          (sortOrder [false] true 1).2.headD .before⟩⟩) ∧
    (∃ r, evalExpr (.sortByExpr "int64" (.col "int64" "b")
        [.col "int64" "a"] ⟨true, true, [true]⟩) exSortFrame .frame
          = .ok r ∧
      ∃ vals name, r = .column ⟨vals, name, defaultSortedness⟩) := by
  constructor
  · refine ⟨_, rfl, ?_⟩
    exact sort_tags_sorted_sortby_leaves_untagged.1 "int64"
      (.col "int64" "b") ⟨true, true, false⟩ exSortFrame _ rfl
  · refine ⟨_, rfl, ?_⟩
    exact sort_tags_sorted_sortby_leaves_untagged.2 "int64"
      (.col "int64" "b") [.col "int64" "a"] ⟨true, true, [true]⟩
      exSortFrame _ rfl

end CudfPolars
